import Mathlib

/-!
Verification of the AstroVault confidential fundraising contract
(`AstroVaultFundraise.sol`) against its natural-language specification.

The contract is shallowly embedded: `euint64` ciphertext handles are modelled
by their plaintext view (`Option Nat`, with `none` the uninitialized handle a
Solidity mapping yields by default), machine arithmetic is `Nat` reduced
modulo `2 ^ 64`, reverting calls return `Except`, and `block.timestamp` is an
explicit `now` argument.  The `ConfidentialUSDT` token contract is part of the
repository but not available here, so its confidential balance store is
modelled from the specification (see `Token`).
-/

set_option maxRecDepth 4096

/-- Principals (Solidity `address`); `0` plays the role of `address(0)`. -/
abbrev Address := Nat

/-- The `euint64` plaintext domain modulus, `2 ^ 64`. -/
def M64 : Nat := 2 ^ 64

/-- Shallow embedding of an FHEVM `euint64` ciphertext handle: `none` is the
uninitialized handle (the all-zero handle a Solidity mapping yields by
default), and `some v` is a handle whose plaintext is `v`. -/
abbrev Euint64 := Option Nat

/-- The uninitialized sentinel handle, distinct from an encrypted zero. -/
def uninitValue : Euint64 := none

/-- The plaintext a handle decrypts to, coercing the uninitialized sentinel
to zero (this is the view the off-core decryption tooling presents). -/
def decVal (v : Euint64) : Nat := v.getD 0

namespace FHE

/-- `FHE.asEuint64`: lift a known plaintext into ciphertext space. -/
def asEuint64 (v : Nat) : Euint64 := some (v % M64)

/-- `FHE.add`: homomorphic addition, `(plaintext a + plaintext b) mod 2^64`. -/
def add (a b : Euint64) : Euint64 := some ((a.getD 0 + b.getD 0) % M64)

/-- `FHE.isInitialized`: whether a handle is set (nonzero in Solidity). -/
def isInit (v : Euint64) : Bool := v.isSome

end FHE

/-- Error taxonomy of `AstroVaultFundraise` (its five declared custom errors)
plus the two token-level failures the spec names for the confidential
transfer path (`ProofInvalid`, `NotAuthorizedOperator`). -/
inductive VaultError where
  | ActiveCampaignAlreadyExists
  | CampaignNotFound
  | CampaignClosed
  | UnauthorizedOwner
  | InvalidCampaignConfig
  | ProofInvalid
  | NotAuthorizedOperator
deriving DecidableEq, Repr

/-- Modelled from the spec: the repository's `ConfidentialUSDT` contract is
not under `src/`.  Following spec sections 4.3 and 6, the confidential balance
store keeps one 64-bit encrypted balance per account (represented here by its
plaintext view) and a time-bounded operator-authorization table
(owner, spender) -> expiry timestamp. -/
structure Token where
  balances : Address → Nat
  operators : Address → Address → Nat

namespace Token

/-- Modelled from the spec: move `amt` from `src` to `dst`, debit and credit
as one atomic unit (credits stay in the 64-bit domain). -/
def transferBal (t : Token) (src dst : Address) (amt : Nat) : Token :=
  let deb : Address → Nat := fun a => if a = src then t.balances src - amt else t.balances a
  { t with balances := fun a => if a = dst then (deb dst + amt) % M64 else deb a }

/-- Modelled from the spec: `confidentialTransfer` clamps the requested
amount to the available balance and returns the effective transferred
amount together with the updated store. -/
def confidentialTransfer (t : Token) (src dst : Address) (amount : Nat) :
    Nat × Token :=
  let transferred := min (amount % M64) (t.balances src)
  (transferred, t.transferBal src dst transferred)

/-- Modelled from the spec: `confidentialTransferFrom` = proof validation
(`ProofInvalid`), operator-authorization check (`NotAuthorizedOperator`
when absent or expired), then a clamped confidential transfer. -/
def confidentialTransferFrom (t : Token) (spender src dst : Address)
    (amount : Nat) (proofOk : Bool) (now : Nat) :
    Except VaultError (Nat × Token) :=
  if proofOk = false then .error .ProofInvalid
  else if t.operators src spender ≤ now then .error .NotAuthorizedOperator
  else .ok (t.confidentialTransfer src dst amount)

/-- Modelled from the spec: `confidentialBalanceOf` (plaintext view). -/
def confidentialBalanceOf (t : Token) (a : Address) : Nat := t.balances a

end Token

/-- The `Campaign` struct of `AstroVaultFundraise`. -/
structure Campaign where
  owner : Address
  name : String
  deadline : Nat
  targetAmount : Euint64
  totalRaised : Euint64
  finalized : Bool
deriving DecidableEq, Repr

/-- The value a Solidity `mapping(uint256 => Campaign)` yields for a slot
that was never written: all fields zeroed. -/
def Campaign.empty : Campaign :=
  { owner := 0, name := "", deadline := 0, targetAmount := uninitValue,
    totalRaised := uninitValue, finalized := false }

/-- Full storage of one `AstroVaultFundraise` instance together with its
token collaborator.  `self` is the contract's own address (`address(this)`). -/
structure FundraiseState where
  cusdt : Token
  self : Address
  campaignCounter : Nat
  activeCampaignId : Nat
  campaigns : Nat → Campaign
  contributions : Nat → Address → Euint64

/-- State right after deployment: counters zero, all mappings at their
Solidity defaults. -/
def initState (t : Token) (self : Address) : FundraiseState :=
  { cusdt := t, self := self, campaignCounter := 0, activeCampaignId := 0,
    campaigns := fun _ => Campaign.empty, contributions := fun _ _ => uninitValue }

/-- The private `_initialized` helper of the source: coerce an uninitialized
handle to an encrypted zero before arithmetic. -/
def initOrZero (v : Euint64) : Euint64 :=
  if FHE.isInit v then v else FHE.asEuint64 0

namespace FundraiseState

/-- `activeCampaignId()` view function. -/
def activeId (s : FundraiseState) : Nat := s.activeCampaignId

/-- `getCampaign`: reverts with `CampaignNotFound` when the stored owner is
the zero address (the slot was never written), else returns the metadata. -/
def getCampaign (s : FundraiseState) (campaignId : Nat) :
    Except VaultError Campaign :=
  let campaign := s.campaigns campaignId
  if campaign.owner = 0 then .error .CampaignNotFound
  else .ok campaign

/-- `getContribution`: a plain mapping read, total by construction. -/
def getContribution (s : FundraiseState) (campaignId : Nat)
    (contributor : Address) : Euint64 :=
  s.contributions campaignId contributor

/-- `createCampaign`: active-slot check first, then config validation, then
allocation of a fresh id and storage of the new campaign. -/
def createCampaign (s : FundraiseState) (sender : Address) (name : String)
    (targetAmount : Nat) (deadline : Nat) (now : Nat) :
    Except VaultError FundraiseState :=
  if s.activeCampaignId ≠ 0 then .error .ActiveCampaignAlreadyExists
  else if name = "" ∨ targetAmount = 0 ∨ deadline ≤ now then
    .error .InvalidCampaignConfig
  else
    let newCampaignId := s.campaignCounter + 1
    let campaign : Campaign :=
      { owner := sender, name := name, deadline := deadline,
        targetAmount := FHE.asEuint64 targetAmount,
        totalRaised := FHE.asEuint64 0, finalized := false }
    .ok { s with
      campaignCounter := newCampaignId,
      activeCampaignId := newCampaignId,
      campaigns := fun i => if i = newCampaignId then campaign else s.campaigns i }

/-- `contribute`: guards (`CampaignNotFound`, `CampaignClosed`), pull funds
through the token's `confidentialTransferFrom`, fold the effective
transferred amount into the running total and the caller's cumulative
contribution record, and return the updated record. -/
def contribute (s : FundraiseState) (sender : Address) (amount : Nat)
    (proofOk : Bool) (now : Nat) :
    Except VaultError (Euint64 × FundraiseState) :=
  let campaignId := s.activeCampaignId
  if campaignId = 0 then .error .CampaignNotFound
  else
    let campaign := s.campaigns campaignId
    if campaign.finalized = true ∨ campaign.deadline ≤ now then
      .error .CampaignClosed
    else
      match s.cusdt.confidentialTransferFrom s.self sender s.self amount proofOk now with
      | .error e => .error e
      | .ok (transferred, token1) =>
        let transferredVal := FHE.asEuint64 transferred
        let updatedTotal := FHE.add (initOrZero campaign.totalRaised) transferredVal
        let campaign1 := { campaign with totalRaised := updatedTotal }
        let previousContribution := initOrZero (s.contributions campaignId sender)
        let updatedContribution := FHE.add previousContribution transferredVal
        .ok (updatedContribution,
          { s with
            cusdt := token1,
            campaigns := fun i => if i = campaignId then campaign1 else s.campaigns i,
            contributions := fun i a =>
              if i = campaignId then
                (if a = sender then updatedContribution else s.contributions i a)
              else s.contributions i a })

/-- `finalizeCampaign`: guards (`CampaignNotFound`, `UnauthorizedOwner`,
`CampaignClosed`), then sweep the contract's entire pooled token balance to
the owner, mark the campaign finalized, clear the active pointer.  The
source performs no deadline comparison here, so the embedding takes no
clock argument. -/
def finalizeCampaign (s : FundraiseState) (sender : Address) :
    Except VaultError (Euint64 × FundraiseState) :=
  let campaignId := s.activeCampaignId
  if campaignId = 0 then .error .CampaignNotFound
  else
    let campaign := s.campaigns campaignId
    if campaign.owner ≠ sender then .error .UnauthorizedOwner
    else if campaign.finalized = true then .error .CampaignClosed
    else
      let balance := s.cusdt.confidentialBalanceOf s.self
      match s.cusdt.confidentialTransfer s.self campaign.owner balance with
      | (payout, token1) =>
        let campaign1 := { campaign with finalized := true }
        .ok (FHE.asEuint64 payout,
          { s with
            cusdt := token1,
            campaigns := fun i => if i = campaignId then campaign1 else s.campaigns i,
            activeCampaignId := 0 })

end FundraiseState

open FundraiseState

/-- EVM revert semantics: a failed `createCampaign` leaves storage unchanged. -/
def createExec (s : FundraiseState) (sender : Address) (name : String)
    (targetAmount deadline now : Nat) : FundraiseState :=
  match s.createCampaign sender name targetAmount deadline now with
  | .ok s1 => s1
  | .error _ => s

/-- One `contribute` transaction request. -/
structure ContribReq where
  sender : Address
  amount : Nat
  proofOk : Bool
  now : Nat

/-- EVM revert semantics: a failed `contribute` leaves storage unchanged. -/
def contributeExec (s : FundraiseState) (r : ContribReq) : FundraiseState :=
  match s.contribute r.sender r.amount r.proofOk r.now with
  | .ok (_, s1) => s1
  | .error _ => s

/-- Whether a `contribute` transaction succeeds. -/
def contributeOk (s : FundraiseState) (r : ContribReq) : Bool :=
  match s.contribute r.sender r.amount r.proofOk r.now with
  | .ok _ => true
  | .error _ => false

/-- EVM revert semantics: a failed `finalizeCampaign` leaves storage
unchanged. -/
def finalizeExec (s : FundraiseState) (sender : Address) : FundraiseState :=
  match s.finalizeCampaign sender with
  | .ok (_, s1) => s1
  | .error _ => s

/-- The effective transferred amount of a `contribute` call in state `s`:
the requested 64-bit amount clamped to the caller's available balance. -/
def effTransfer (s : FundraiseState) (r : ContribReq) : Nat :=
  min (r.amount % M64) (s.cusdt.balances r.sender)

/-- Run a sequence of contribution transactions (each must succeed). -/
def runOk (s : FundraiseState) : List ContribReq → Bool
  | [] => true
  | r :: rs => contributeOk s r && runOk (contributeExec s r) rs

/-- Final state after a sequence of contribution transactions. -/
def runExec (s : FundraiseState) : List ContribReq → FundraiseState
  | [] => s
  | r :: rs => runExec (contributeExec s r) rs

/-- The list of effectively-transferred amounts along a run. -/
def transfersOf (s : FundraiseState) : List ContribReq → List Nat
  | [] => []
  | r :: rs => effTransfer s r :: transfersOf (contributeExec s r) rs

/-- One public transaction against the ledger; `extToken` is any activity on
the token contract that bypasses the fundraiser (mint, operator grants, ...). -/
inductive Op where
  | create (sender : Address) (name : String) (target deadline now : Nat)
  | contrib (r : ContribReq)
  | finalize (sender : Address)
  | extToken (f : Token → Token)

/-- Apply one transaction with revert semantics. -/
def applyOp (s : FundraiseState) : Op → FundraiseState
  | .create sender name target deadline now => createExec s sender name target deadline now
  | .contrib r => contributeExec s r
  | .finalize sender => finalizeExec s sender
  | .extToken f => { s with cusdt := f s.cusdt }

/-- `msg.sender` is never the zero address for a campaign creation. -/
def Op.senderOk : Op → Prop
  | .create sender _ _ _ _ => sender ≠ 0
  | _ => True

/-- States reachable from deployment by public transactions. -/
inductive Reachable : FundraiseState → Prop where
  | init (t : Token) (self : Address) : Reachable (initState t self)
  | step {s : FundraiseState} (h : Reachable s) (op : Op) (hop : op.senderOk) :
      Reachable (applyOp s op)

/-- The single-open-round invariant: the active id is `0`, or points to an
allocated, unfinalized campaign; every allocated id lies in
`[1, campaignCounter]`; any allocated unfinalized campaign is the active
one (uniqueness); a finalized flag only ever sits on an allocated slot. -/
def SingleOpenInv (s : FundraiseState) : Prop :=
  (s.activeCampaignId ≠ 0 →
      (s.campaigns s.activeCampaignId).owner ≠ 0 ∧
      (s.campaigns s.activeCampaignId).finalized = false) ∧
  (∀ i, (s.campaigns i).owner ≠ 0 → 1 ≤ i ∧ i ≤ s.campaignCounter) ∧
  (∀ i, (s.campaigns i).owner ≠ 0 → (s.campaigns i).finalized = false →
      i = s.activeCampaignId) ∧
  (∀ i, (s.campaigns i).finalized = true → (s.campaigns i).owner ≠ 0)

/-- The state a successful `contribute` transaction produces, written out
explicitly: the token debits the caller and credits the pool by the
effective transferred amount, the running total and the caller's cumulative
record are each folded with that amount, everything else is untouched. -/
def contribResult (s : FundraiseState) (r : ContribReq) : FundraiseState :=
  let campaignId := s.activeCampaignId
  let tr := effTransfer s r
  let trVal := FHE.asEuint64 tr
  let campaign := s.campaigns campaignId
  let campaign1 := { campaign with totalRaised := FHE.add (initOrZero campaign.totalRaised) trVal }
  let updatedContribution :=
    FHE.add (initOrZero (s.contributions campaignId r.sender)) trVal
  { s with
    cusdt := s.cusdt.transferBal r.sender s.self tr,
    campaigns := fun i => if i = campaignId then campaign1 else s.campaigns i,
    contributions := fun i a =>
      if i = campaignId then
        (if a = r.sender then updatedContribution else s.contributions i a)
      else s.contributions i a }

/-- The state a successful `createCampaign` transaction produces, written
out explicitly. -/
def createResult (s : FundraiseState) (sender : Address) (name : String)
    (target deadline : Nat) : FundraiseState :=
  { s with
    campaignCounter := s.campaignCounter + 1,
    activeCampaignId := s.campaignCounter + 1,
    campaigns := fun i =>
      if i = s.campaignCounter + 1 then
        { owner := sender, name := name, deadline := deadline,
          targetAmount := FHE.asEuint64 target,
          totalRaised := FHE.asEuint64 0, finalized := false }
      else s.campaigns i }

/-- The state a successful `finalizeCampaign` transaction produces, written
out explicitly: the entire pooled balance moves to the owner, the campaign
is marked finalized, the active pointer is cleared. -/
def finalizeResult (s : FundraiseState) : FundraiseState :=
  let campaignId := s.activeCampaignId
  let bal := s.cusdt.balances s.self
  let tr := min (bal % M64) bal
  { s with
    cusdt := s.cusdt.transferBal s.self (s.campaigns campaignId).owner tr,
    campaigns := fun i =>
      if i = campaignId then { s.campaigns campaignId with finalized := true }
      else s.campaigns i,
    activeCampaignId := 0 }

/-- Concrete token for witnesses: accounts 2 and 3 hold funds, everyone has
granted operator rights (expiry 1000) to address 1, the contract. -/
def witToken : Token :=
  { balances := fun a => if a = 2 then 500 else if a = 3 then 300 else 0,
    operators := fun _ sp => if sp = 1 then 1000 else 0 }

/-- Concrete state for witnesses: deployment at address 1, then address 9
opens campaign "Vault" (target 1000, deadline 100) at time 10. -/
def witState : FundraiseState :=
  createExec (initState witToken 1) 9 "Vault" 1000 100 10

/-- Concrete contribution request: account 2 contributes 150 at time 20. -/
def witReqA : ContribReq := { sender := 2, amount := 150, proofOk := true, now := 20 }

/-- Concrete contribution request: account 3 contributes 80 at time 30. -/
def witReqB : ContribReq := { sender := 3, amount := 80, proofOk := true, now := 30 }

/-- Concrete contribution request: account 2 contributes 150 again at 25. -/
def witReqA2 : ContribReq := { sender := 2, amount := 150, proofOk := true, now := 25 }

/-- Concrete state for witnesses: an open campaign (id 1, owner 9) whose
pooled contract account (address 1) holds 230 tokens. -/
def witFinal : FundraiseState :=
  { cusdt := { balances := fun a => if a = 1 then 230 else 0, operators := fun _ _ => 0 },
    self := 1, campaignCounter := 1, activeCampaignId := 1,
    campaigns := fun i =>
      if i = 1 then
        { owner := 9, name := "Vault", deadline := 100,
          targetAmount := some 1000, totalRaised := some 230, finalized := false }
      else Campaign.empty,
    contributions := fun _ _ => uninitValue }

/-- Concrete state for witnesses: `witState` after its owner finalized. -/
def witDone : FundraiseState := finalizeExec witState 9

theorem M64_pos : 0 < M64 := by decide

theorem decVal_initOrZero (v : Euint64) : decVal (initOrZero v) = decVal v := by
  cases v <;> rfl

theorem decVal_asEuint64 (n : Nat) : decVal (FHE.asEuint64 n) = n % M64 := rfl

theorem decVal_add (a b : Euint64) :
    decVal (FHE.add a b) = (decVal a + decVal b) % M64 := rfl

theorem effTransfer_lt (s : FundraiseState) (r : ContribReq) :
    effTransfer s r < M64 :=
  lt_of_le_of_lt (Nat.min_le_left _ _) (Nat.mod_lt _ M64_pos)

theorem contributeExec_of_fail (s : FundraiseState) (r : ContribReq)
    (h : contributeOk s r = false) : contributeExec s r = s := by
  unfold contributeOk at h
  unfold contributeExec
  cases hc : s.contribute r.sender r.amount r.proofOk r.now with
  | ok p => rw [hc] at h; simp at h
  | error e => rfl

theorem contribute_ok_elim (s : FundraiseState) (r : ContribReq)
    (h : contributeOk s r = true) :
    s.activeCampaignId ≠ 0 ∧
    (s.campaigns s.activeCampaignId).finalized = false ∧
    r.now < (s.campaigns s.activeCampaignId).deadline ∧
    contributeExec s r = contribResult s r := by
  by_cases h0 : s.activeCampaignId = 0
  · simp [contributeOk, FundraiseState.contribute, h0] at h
  · by_cases h1 : (s.campaigns s.activeCampaignId).finalized = true ∨
        (s.campaigns s.activeCampaignId).deadline ≤ r.now
    · simp [contributeOk, FundraiseState.contribute, h0, h1] at h
    · push_neg at h1
      have hf : (s.campaigns s.activeCampaignId).finalized = false := by
        simpa using h1.1
      have h2 : ¬ (s.campaigns s.activeCampaignId).deadline ≤ r.now := by omega
      by_cases hp : r.proofOk = true
      · by_cases hop : s.cusdt.operators r.sender s.self ≤ r.now
        · simp [contributeOk, FundraiseState.contribute,
            Token.confidentialTransferFrom, h0, hf, h2, hp, hop] at h
        · refine ⟨h0, hf, by omega, ?_⟩
          simp [contributeExec, FundraiseState.contribute,
            Token.confidentialTransferFrom, Token.confidentialTransfer,
            contribResult, effTransfer, h0, hf, h2, hp, hop]
      · simp [contributeOk, FundraiseState.contribute,
          Token.confidentialTransferFrom, h0, hf, h2, hp] at h


theorem create_err_active (s : FundraiseState) (sender : Address)
    (name : String) (target deadline now : Nat)
    (h0 : s.activeCampaignId ≠ 0) :
    s.createCampaign sender name target deadline now
      = .error .ActiveCampaignAlreadyExists := by
  unfold FundraiseState.createCampaign
  rw [if_pos h0]

theorem create_err_config (s : FundraiseState) (sender : Address)
    (name : String) (target deadline now : Nat)
    (h0 : s.activeCampaignId = 0)
    (hc : name = "" ∨ target = 0 ∨ deadline ≤ now) :
    s.createCampaign sender name target deadline now
      = .error .InvalidCampaignConfig := by
  unfold FundraiseState.createCampaign
  rw [if_neg (by simp [h0]), if_pos hc]

theorem create_ok (s : FundraiseState) (sender : Address)
    (name : String) (target deadline now : Nat)
    (h0 : s.activeCampaignId = 0)
    (hc : ¬(name = "" ∨ target = 0 ∨ deadline ≤ now)) :
    s.createCampaign sender name target deadline now
      = .ok (createResult s sender name target deadline) := by
  unfold FundraiseState.createCampaign createResult
  rw [if_neg (by simp [h0]), if_neg hc]

theorem createExec_of_err (s : FundraiseState) (sender : Address)
    (name : String) (target deadline now : Nat) (e : VaultError)
    (h : s.createCampaign sender name target deadline now = .error e) :
    createExec s sender name target deadline now = s := by
  unfold createExec
  rw [h]

theorem createExec_ok (s : FundraiseState) (sender : Address)
    (name : String) (target deadline now : Nat)
    (h0 : s.activeCampaignId = 0)
    (hc : ¬(name = "" ∨ target = 0 ∨ deadline ≤ now)) :
    createExec s sender name target deadline now
      = createResult s sender name target deadline := by
  unfold createExec
  rw [create_ok s sender name target deadline now h0 hc]

theorem finalize_err_noactive (s : FundraiseState) (sender : Address)
    (h0 : s.activeCampaignId = 0) :
    s.finalizeCampaign sender = .error .CampaignNotFound := by
  unfold FundraiseState.finalizeCampaign
  rw [if_pos h0]

theorem finalize_err_owner (s : FundraiseState) (sender : Address)
    (h0 : s.activeCampaignId ≠ 0)
    (how : (s.campaigns s.activeCampaignId).owner ≠ sender) :
    s.finalizeCampaign sender = .error .UnauthorizedOwner := by
  unfold FundraiseState.finalizeCampaign
  rw [if_neg h0, if_pos how]

theorem finalize_err_closed (s : FundraiseState) (sender : Address)
    (h0 : s.activeCampaignId ≠ 0)
    (how : (s.campaigns s.activeCampaignId).owner = sender)
    (hf : (s.campaigns s.activeCampaignId).finalized = true) :
    s.finalizeCampaign sender = .error .CampaignClosed := by
  unfold FundraiseState.finalizeCampaign
  rw [if_neg h0, if_neg (by simp [how]), if_pos hf]

theorem finalize_ok (s : FundraiseState) (sender : Address)
    (h0 : s.activeCampaignId ≠ 0)
    (how : (s.campaigns s.activeCampaignId).owner = sender)
    (hf : (s.campaigns s.activeCampaignId).finalized = false) :
    s.finalizeCampaign sender
      = .ok (FHE.asEuint64
               (min (s.cusdt.balances s.self % M64) (s.cusdt.balances s.self)),
             finalizeResult s) := by
  unfold FundraiseState.finalizeCampaign finalizeResult
    Token.confidentialTransfer Token.confidentialBalanceOf
  rw [if_neg h0, if_neg (by simp [how]), if_neg (by simp [hf])]

theorem finalizeExec_of_err (s : FundraiseState) (sender : Address)
    (e : VaultError) (h : s.finalizeCampaign sender = .error e) :
    finalizeExec s sender = s := by
  unfold finalizeExec
  rw [h]

theorem finalizeExec_ok (s : FundraiseState) (sender : Address)
    (h0 : s.activeCampaignId ≠ 0)
    (how : (s.campaigns s.activeCampaignId).owner = sender)
    (hf : (s.campaigns s.activeCampaignId).finalized = false) :
    finalizeExec s sender = finalizeResult s := by
  unfold finalizeExec
  rw [finalize_ok s sender h0 how hf]

theorem createResult_proj (s : FundraiseState) (sender : Address)
    (name : String) (target deadline : Nat) :
    (createResult s sender name target deadline).activeCampaignId
        = s.campaignCounter + 1 ∧
    (createResult s sender name target deadline).campaignCounter
        = s.campaignCounter + 1 ∧
    (createResult s sender name target deadline).campaigns (s.campaignCounter + 1)
        = { owner := sender, name := name, deadline := deadline,
            targetAmount := FHE.asEuint64 target,
            totalRaised := FHE.asEuint64 0, finalized := false } ∧
    ∀ i, i ≠ s.campaignCounter + 1 →
      (createResult s sender name target deadline).campaigns i = s.campaigns i := by
  refine ⟨rfl, rfl, by simp [createResult], fun i hi => by simp [createResult, hi]⟩

theorem contribResult_proj (s : FundraiseState) (r : ContribReq) :
    (contribResult s r).activeCampaignId = s.activeCampaignId ∧
    (contribResult s r).campaignCounter = s.campaignCounter ∧
    (∀ i, ((contribResult s r).campaigns i).owner = (s.campaigns i).owner ∧
          ((contribResult s r).campaigns i).finalized = (s.campaigns i).finalized ∧
          ((contribResult s r).campaigns i).deadline = (s.campaigns i).deadline) ∧
    ((contribResult s r).campaigns s.activeCampaignId).totalRaised
        = FHE.add (initOrZero (s.campaigns s.activeCampaignId).totalRaised)
            (FHE.asEuint64 (effTransfer s r)) ∧
    (contribResult s r).contributions s.activeCampaignId r.sender
        = FHE.add (initOrZero (s.contributions s.activeCampaignId r.sender))
            (FHE.asEuint64 (effTransfer s r)) := by
  refine ⟨rfl, rfl, fun i => ?_, by simp [contribResult], by simp [contribResult]⟩
  by_cases hi : i = s.activeCampaignId <;> simp [contribResult, hi]

theorem finalizeResult_proj (s : FundraiseState) :
    (finalizeResult s).activeCampaignId = 0 ∧
    (finalizeResult s).campaignCounter = s.campaignCounter ∧
    (∀ i, ((finalizeResult s).campaigns i).owner = (s.campaigns i).owner) ∧
    ((finalizeResult s).campaigns s.activeCampaignId).finalized = true ∧
    (∀ i, i ≠ s.activeCampaignId →
      ((finalizeResult s).campaigns i).finalized = (s.campaigns i).finalized) := by
  refine ⟨rfl, rfl, fun i => ?_, by simp [finalizeResult],
    fun i hi => by simp [finalizeResult, hi]⟩
  by_cases hi : i = s.activeCampaignId <;> simp [finalizeResult, hi]

theorem singleOpenInv_initState (t : Token) (self : Address) :
    SingleOpenInv (initState t self) := by
  unfold SingleOpenInv
  refine ⟨fun h => absurd rfl h, ?_, ?_, ?_⟩
  · intro i hi
    simp [initState, Campaign.empty] at hi
  · intro i hi
    simp [initState, Campaign.empty] at hi
  · intro i hf
    simp [initState, Campaign.empty] at hf

theorem singleOpenInv_create (s : FundraiseState) (hInv : SingleOpenInv s)
    (sender : Address) (hs : sender ≠ 0) (name : String)
    (target deadline now : Nat) :
    SingleOpenInv (createExec s sender name target deadline now) := by
  by_cases h0 : s.activeCampaignId = 0
  · by_cases hc : name = "" ∨ target = 0 ∨ deadline ≤ now
    · rw [createExec_of_err s sender name target deadline now _
        (create_err_config s sender name target deadline now h0 hc)]
      exact hInv
    · rw [createExec_ok s sender name target deadline now h0 hc]
      obtain ⟨hA, hC, hNew, hOld⟩ := createResult_proj s sender name target deadline
      obtain ⟨_, hb, hu, hd⟩ := hInv
      refine ⟨?_, ?_, ?_, ?_⟩
      · intro _
        rw [hA, hNew]
        exact ⟨hs, rfl⟩
      · intro i hi
        rw [hC]
        by_cases hi1 : i = s.campaignCounter + 1
        · omega
        · rw [hOld i hi1] at hi
          have := hb i hi
          omega
      · intro i hown hfin
        rw [hA]
        by_cases hi1 : i = s.campaignCounter + 1
        · exact hi1
        · rw [hOld i hi1] at hown hfin
          have h1 := hu i hown hfin
          have h2 := hb i hown
          rw [h0] at h1
          omega
      · intro i hfin
        by_cases hi1 : i = s.campaignCounter + 1
        · rw [hi1, hNew] at hfin
          simp at hfin
        · rw [hOld i hi1] at hfin ⊢
          exact hd i hfin
  · rw [createExec_of_err s sender name target deadline now _
      (create_err_active s sender name target deadline now h0)]
    exact hInv

theorem singleOpenInv_contrib (s : FundraiseState) (hInv : SingleOpenInv s)
    (r : ContribReq) : SingleOpenInv (contributeExec s r) := by
  cases hok : contributeOk s r with
  | false => rw [contributeExec_of_fail s r hok]; exact hInv
  | true =>
    obtain ⟨h0, hf, hd0, heq⟩ := contribute_ok_elim s r hok
    rw [heq]
    obtain ⟨hA, hC, hFields, hT, hP⟩ := contribResult_proj s r
    obtain ⟨ha, hb, hu, hd⟩ := hInv
    refine ⟨?_, ?_, ?_, ?_⟩
    · intro _
      rw [hA, (hFields s.activeCampaignId).1, (hFields s.activeCampaignId).2.1]
      exact ha h0
    · intro i hi
      rw [hC]
      rw [(hFields i).1] at hi
      exact hb i hi
    · intro i hown hfin
      rw [hA]
      rw [(hFields i).1] at hown
      rw [(hFields i).2.1] at hfin
      exact hu i hown hfin
    · intro i hfin
      rw [(hFields i).1]
      rw [(hFields i).2.1] at hfin
      exact hd i hfin

theorem singleOpenInv_finalize (s : FundraiseState) (hInv : SingleOpenInv s)
    (sender : Address) : SingleOpenInv (finalizeExec s sender) := by
  by_cases h0 : s.activeCampaignId = 0
  · rw [finalizeExec_of_err s sender _ (finalize_err_noactive s sender h0)]
    exact hInv
  · by_cases how : (s.campaigns s.activeCampaignId).owner = sender
    · by_cases hf : (s.campaigns s.activeCampaignId).finalized = true
      · rw [finalizeExec_of_err s sender _ (finalize_err_closed s sender h0 how hf)]
        exact hInv
      · have hf2 : (s.campaigns s.activeCampaignId).finalized = false := by
          simpa using hf
        rw [finalizeExec_ok s sender h0 how hf2]
        obtain ⟨hA, hC, hOwn, hFin, hRest⟩ := finalizeResult_proj s
        obtain ⟨ha, hb, hu, hd⟩ := hInv
        refine ⟨?_, ?_, ?_, ?_⟩
        · intro hact
          rw [hA] at hact
          exact absurd rfl hact
        · intro i hi
          rw [hC]
          rw [hOwn i] at hi
          exact hb i hi
        · intro i hown hfin
          rw [hOwn i] at hown
          by_cases hi1 : i = s.activeCampaignId
          · rw [hi1, hFin] at hfin
            simp at hfin
          · rw [hRest i hi1] at hfin
            exact absurd (hu i hown hfin) hi1
        · intro i hfin
          rw [hOwn i]
          by_cases hi1 : i = s.activeCampaignId
          · rw [hi1]
            exact (ha h0).1
          · rw [hRest i hi1] at hfin
            exact hd i hfin
    · rw [finalizeExec_of_err s sender _ (finalize_err_owner s sender h0 how)]
      exact hInv

theorem singleOpenInv_step (s : FundraiseState) (op : Op) (hop : op.senderOk)
    (hInv : SingleOpenInv s) : SingleOpenInv (applyOp s op) := by
  cases op with
  | create sender name target deadline now =>
    exact singleOpenInv_create s hInv sender hop name target deadline now
  | contrib r => exact singleOpenInv_contrib s hInv r
  | finalize sender => exact singleOpenInv_finalize s hInv sender
  | extToken f =>
    obtain ⟨ha, hb, hu, hd⟩ := hInv
    exact ⟨ha, hb, hu, hd⟩

theorem reachable_inv (s : FundraiseState) (h : Reachable s) :
    SingleOpenInv s := by
  induction h with
  | init t self => exact singleOpenInv_initState t self
  | step h op hop ih => exact singleOpenInv_step _ op hop ih

theorem contribute_step_total (s : FundraiseState) (r : ContribReq)
    (hok : contributeOk s r = true) :
    (contributeExec s r).activeCampaignId = s.activeCampaignId ∧
    decVal (((contributeExec s r).campaigns s.activeCampaignId).totalRaised)
      = (decVal ((s.campaigns s.activeCampaignId).totalRaised)
          + effTransfer s r) % M64 := by
  obtain ⟨h0, hf, hd0, heq⟩ := contribute_ok_elim s r hok
  rw [heq]
  refine ⟨(contribResult_proj s r).1, ?_⟩
  rw [(contribResult_proj s r).2.2.2.1, decVal_add, decVal_initOrZero,
    decVal_asEuint64, Nat.mod_eq_of_lt (effTransfer_lt s r)]

theorem runExec_total (s : FundraiseState) (reqs : List ContribReq)
    (hrun : runOk s reqs = true) (hactive : s.activeCampaignId ≠ 0)
    (htot : decVal ((s.campaigns s.activeCampaignId).totalRaised) < M64) :
    (runExec s reqs).activeCampaignId = s.activeCampaignId ∧
    decVal (((runExec s reqs).campaigns s.activeCampaignId).totalRaised)
      = (decVal ((s.campaigns s.activeCampaignId).totalRaised)
          + (transfersOf s reqs).sum) % M64 := by
  induction reqs generalizing s with
  | nil =>
    refine ⟨rfl, ?_⟩
    simp only [runExec, transfersOf, List.sum_nil, Nat.add_zero]
    rw [Nat.mod_eq_of_lt htot]
  | cons r rs ih =>
    simp only [runOk, Bool.and_eq_true] at hrun
    obtain ⟨h1, h2⟩ := hrun
    obtain ⟨hstepA, hstepT⟩ := contribute_step_total s r h1
    have hactive1 : (contributeExec s r).activeCampaignId ≠ 0 := by
      rw [hstepA]; exact hactive
    have htot1 : decVal (((contributeExec s r).campaigns
        (contributeExec s r).activeCampaignId).totalRaised) < M64 := by
      rw [hstepA, hstepT]
      exact Nat.mod_lt _ M64_pos
    obtain ⟨ihA, ihT⟩ := ih (contributeExec s r) h2 hactive1 htot1
    rw [hstepA] at ihA ihT
    constructor
    · simp only [runExec]
      rw [ihA]
    · simp only [runExec, transfersOf, List.sum_cons]
      rw [ihT, hstepT, Nat.mod_add_mod, Nat.add_assoc]

theorem add_zero_small (x : Nat) (hx : x < M64) :
    FHE.add (initOrZero uninitValue) (FHE.asEuint64 x) = some x := by
  simp [FHE.add, FHE.asEuint64, initOrZero, FHE.isInit, uninitValue,
    Nat.mod_eq_of_lt hx]

theorem add_some_small (v x : Nat) :
    FHE.add (initOrZero (some v)) (FHE.asEuint64 x)
      = some ((v + x % M64) % M64) := by
  simp [FHE.add, FHE.asEuint64, initOrZero, FHE.isInit]

theorem witState_reachable : Reachable witState :=
  Reachable.step (Reachable.init witToken 1)
    (Op.create 9 "Vault" 1000 100 10) (by show (9 : Address) ≠ 0; decide)

theorem witDone_reachable : Reachable witDone :=
  Reachable.step witState_reachable (Op.finalize 9) trivial

/-- Claim C2: on an active round, a call by the round owner while the
finalized flag is false always succeeds — the embedding of
`finalizeCampaign` takes no clock argument because the source performs no
deadline comparison, so in particular the call succeeds when `now` is still
before the deadline.  It sweeps the pooled account's entire balance to the
owner, marks the round finalized, resets the active round id to 0, and
returns the effective payout value (the full pooled balance). -/
theorem astro_finalize_by_owner (s : FundraiseState) (sender : Address)
    (hactive : s.activeCampaignId ≠ 0)
    (howner : (s.campaigns s.activeCampaignId).owner = sender)
    (hfin : (s.campaigns s.activeCampaignId).finalized = false)
    (hbal : s.cusdt.balances s.self < M64)
    (hne : s.self ≠ sender) :
    s.finalizeCampaign sender
      = .ok (FHE.asEuint64 (s.cusdt.balances s.self), finalizeExec s sender) ∧
    (finalizeExec s sender).cusdt.balances s.self = 0 ∧
    (finalizeExec s sender).cusdt.balances sender
      = (s.cusdt.balances sender + s.cusdt.balances s.self) % M64 ∧
    ((finalizeExec s sender).campaigns s.activeCampaignId).finalized = true ∧
    (finalizeExec s sender).activeCampaignId = 0 := by
  have hmin : min (s.cusdt.balances s.self % M64) (s.cusdt.balances s.self)
      = s.cusdt.balances s.self := by
    rw [Nat.mod_eq_of_lt hbal, min_self]
  have hex := finalizeExec_ok s sender hactive howner hfin
  have hne2 : sender ≠ s.self := Ne.symm hne
  refine ⟨?_, ?_, ?_, ?_, ?_⟩
  · rw [finalize_ok s sender hactive howner hfin, hmin, hex]
  · rw [hex]
    simp [finalizeResult, Token.transferBal, hmin, howner, hne, hne2]
  · rw [hex]
    simp [finalizeResult, Token.transferBal, hmin, howner, hne, hne2]
  · rw [hex]
    exact (finalizeResult_proj s).2.2.2.1
  · rw [hex]
    exact (finalizeResult_proj s).1

/-- Claim C2 witness: a concrete open round (pool of 230, owner 9). -/
theorem astro_finalize_by_owner_wit :
    witFinal.finalizeCampaign 9
      = .ok (FHE.asEuint64 230, finalizeExec witFinal 9) ∧
    (finalizeExec witFinal 9).cusdt.balances 1 = 0 ∧
    (finalizeExec witFinal 9).cusdt.balances 9 = 230 ∧
    ((finalizeExec witFinal 9).campaigns 1).finalized = true ∧
    (finalizeExec witFinal 9).activeCampaignId = 0 :=
  astro_finalize_by_owner witFinal 9 (by decide) rfl rfl (by decide) (by decide)

/-- Claim C4 counterexample: the code does NOT distinguish "nothing is
open" from "round not found": `contribute` with no open round and
`getCampaign` on a never-allocated id revert with the same error kind,
`CampaignNotFound`. -/
theorem astro_notfound_kinds_coincide :
    (initState witToken 1).contribute 2 150 true 0
      = .error .CampaignNotFound ∧
    (initState witToken 1).getCampaign 7 = .error .CampaignNotFound :=
  ⟨rfl, rfl⟩

/-- Claim C4 (amended): `contribute` fails with `CampaignNotFound` whenever
no round is open (active id = 0), and fails with `CampaignClosed` whenever
the active round is finalized or `now >= deadline`; however "nothing is
open" is reported with the same error kind the read path uses for "round
not found" (`CampaignNotFound`), so the two are not distinguishable. -/
theorem astro_contribute_guard_errors (s : FundraiseState) (sender : Address)
    (amount : Nat) (proofOk : Bool) (now : Nat) :
    (s.activeCampaignId = 0 →
      s.contribute sender amount proofOk now = .error .CampaignNotFound) ∧
    (s.activeCampaignId ≠ 0 →
      ((s.campaigns s.activeCampaignId).finalized = true ∨
        (s.campaigns s.activeCampaignId).deadline ≤ now) →
      s.contribute sender amount proofOk now = .error .CampaignClosed) := by
  constructor
  · intro h0
    unfold FundraiseState.contribute
    rw [if_pos h0]
  · intro h0 hcl
    unfold FundraiseState.contribute
    rw [if_neg h0, if_pos hcl]

/-- Claim C4 witness: both guard failures at concrete inputs (no open
round; open round past its deadline). -/
theorem astro_contribute_guard_errors_wit :
    (initState witToken 1).contribute 3 80 true 0
      = .error .CampaignNotFound ∧
    witState.contribute 2 150 true 100 = .error .CampaignClosed :=
  ⟨(astro_contribute_guard_errors (initState witToken 1) 3 80 true 0).1 rfl,
   (astro_contribute_guard_errors witState 2 150 true 100).2 (by decide)
     (Or.inr (by decide))⟩

/-- Claim C5 counterexample: `getContribution` on a never-allocated round
id does not fail with `RoundNotFound` — it is a total mapping read and
returns the uninitialized sentinel handle. -/
theorem astro_getContribution_no_revert :
    (initState witToken 1).getContribution 5 2 = uninitValue := rfl

/-- Claim C5 (amended): in every reachable state, `getCampaign(id)` fails
with `CampaignNotFound` for every never-allocated id (0 or beyond the
counter), and for ids whose stored round is finalized it returns the last
stored metadata with `finalized = true`; `getContribution` never fails and
simply returns the stored handle. -/
theorem astro_lookup_errors (s : FundraiseState) (h : Reachable s) (i : Nat) :
    ((i = 0 ∨ s.campaignCounter < i) →
      s.getCampaign i = .error .CampaignNotFound) ∧
    ((s.campaigns i).finalized = true → s.getCampaign i = .ok (s.campaigns i)) ∧
    (∀ p, s.getContribution i p = s.contributions i p) := by
  obtain ⟨ha, hb, hu, hd⟩ := reachable_inv s h
  refine ⟨?_, ?_, fun p => rfl⟩
  · intro hi
    have hown : (s.campaigns i).owner = 0 := by
      by_contra hne
      have h2 := hb i hne
      rcases hi with hi | hi <;> omega
    unfold FundraiseState.getCampaign
    rw [if_pos hown]
  · intro hfin
    have hown := hd i hfin
    unfold FundraiseState.getCampaign
    rw [if_neg hown]

/-- Claim C5 witness: a reachable finalized state — unknown id 5 reverts
with `CampaignNotFound`, the finalized id 1 still returns its metadata, and
`getContribution` on the unknown id returns the sentinel. -/
theorem astro_lookup_errors_wit :
    witDone.getCampaign 5 = .error .CampaignNotFound ∧
    witDone.getCampaign 1 = .ok (witDone.campaigns 1) ∧
    witDone.getContribution 5 7 = uninitValue :=
  ⟨(astro_lookup_errors witDone witDone_reachable 5).1 (Or.inr (by decide)),
   (astro_lookup_errors witDone witDone_reachable 1).2.1 rfl,
   (astro_lookup_errors witDone witDone_reachable 5).2.2 7⟩

/-- Claim C6: with no active round and a valid configuration (non-empty
name, positive 64-bit target, deadline strictly after `now`),
`createCampaign` succeeds, `activeCampaignId` immediately returns the newly
allocated id (the incremented counter), and every second `createCampaign`
call on the resulting state fails with `ActiveCampaignAlreadyExists`. -/
theorem astro_create_then_active (s : FundraiseState) (sender : Address)
    (name : String) (target deadline now : Nat)
    (hactive : s.activeCampaignId = 0) (hname : name ≠ "")
    (htarget : 0 < target) (ht64 : target < M64) (hdl : now < deadline) :
    s.createCampaign sender name target deadline now
      = .ok (createExec s sender name target deadline now) ∧
    (createExec s sender name target deadline now).activeCampaignId
      = s.campaignCounter + 1 ∧
    ∀ sender2 name2 target2 deadline2 now2,
      (createExec s sender name target deadline now).createCampaign
          sender2 name2 target2 deadline2 now2
        = .error .ActiveCampaignAlreadyExists := by
  have hc : ¬(name = "" ∨ target = 0 ∨ deadline ≤ now) := by
    push_neg
    exact ⟨hname, by omega, by omega⟩
  have hex := createExec_ok s sender name target deadline now hactive hc
  refine ⟨?_, ?_, ?_⟩
  · rw [create_ok s sender name target deadline now hactive hc, hex]
  · rw [hex]
    exact (createResult_proj s sender name target deadline).1
  · intro sender2 name2 target2 deadline2 now2
    apply create_err_active
    rw [hex, (createResult_proj s sender name target deadline).1]
    omega

/-- Claim C6 witness: concrete creation, with the fresh id read back and a
rejected second creation. -/
theorem astro_create_then_active_wit :
    witState.activeCampaignId = 1 ∧
    witState.createCampaign 4 "Another" 50 900 20
      = .error .ActiveCampaignAlreadyExists :=
  ⟨(astro_create_then_active (initState witToken 1) 9 "Vault" 1000 100 10 rfl
      (by decide) (by decide) (by decide) (by decide)).2.1,
   (astro_create_then_active (initState witToken 1) 9 "Vault" 1000 100 10 rfl
      (by decide) (by decide) (by decide) (by decide)).2.2 4 "Another" 50 900 20⟩

/-- Claim C7: with no open round, `createCampaign` fails with
`InvalidCampaignConfig` exactly when the name is empty, the target is zero,
or the deadline is not strictly in the future; with a round open, the
`ActiveCampaignAlreadyExists` failure takes precedence regardless of the
configuration. -/
theorem astro_create_validation (s : FundraiseState) (sender : Address)
    (name : String) (target deadline now : Nat) (ht64 : target < M64) :
    (s.activeCampaignId = 0 →
      (s.createCampaign sender name target deadline now
          = .error .InvalidCampaignConfig
        ↔ (name = "" ∨ target = 0 ∨ deadline ≤ now))) ∧
    (s.activeCampaignId ≠ 0 →
      s.createCampaign sender name target deadline now
        = .error .ActiveCampaignAlreadyExists) := by
  constructor
  · intro h0
    constructor
    · intro heq
      by_contra hc
      rw [create_ok s sender name target deadline now h0 hc] at heq
      simp at heq
    · intro hc
      exact create_err_config s sender name target deadline now h0 hc
  · intro h0
    exact create_err_active s sender name target deadline now h0

/-- Claim C7 witness: empty name rejected when idle; a bad config is
overridden by `ActiveCampaignAlreadyExists` when a round is open. -/
theorem astro_create_validation_wit :
    (initState witToken 1).createCampaign 9 "" 1000 100 10
      = .error .InvalidCampaignConfig ∧
    witState.createCampaign 9 "X" 1000 200 20
      = .error .ActiveCampaignAlreadyExists :=
  ⟨((astro_create_validation (initState witToken 1) 9 "" 1000 100 10
      (by decide)).1 rfl).mpr (Or.inl rfl),
   (astro_create_validation witState 9 "X" 1000 200 20 (by decide)).2
     (by decide)⟩

/-- Claim C8: `finalizeCampaign` called on an active round by a non-owner
fails with `UnauthorizedOwner`, and by revert semantics the entire ledger
state (running total, finalized flag, active id, balances) is unchanged. -/
theorem astro_finalize_unauthorized (s : FundraiseState) (sender : Address)
    (hactive : s.activeCampaignId ≠ 0)
    (hnot : (s.campaigns s.activeCampaignId).owner ≠ sender) :
    s.finalizeCampaign sender = .error .UnauthorizedOwner ∧
    finalizeExec s sender = s :=
  ⟨finalize_err_owner s sender hactive hnot,
   finalizeExec_of_err s sender _ (finalize_err_owner s sender hactive hnot)⟩

/-- Claim C8 witness: account 4 (not the owner 9) cannot finalize. -/
theorem astro_finalize_unauthorized_wit :
    witFinal.finalizeCampaign 4 = .error .UnauthorizedOwner ∧
    finalizeExec witFinal 4 = witFinal :=
  astro_finalize_unauthorized witFinal 4 (by decide) (by decide)

/-- Claim C9: in every reachable state at most one round is open — the
active id is 0, or it points to exactly one stored, unfinalized round; the
invariant is preserved by every public operation because reachability is
closed under `applyOp` (`createCampaign`, `contribute`, `finalizeCampaign`,
and external token activity). -/
theorem astro_single_active_round (s : FundraiseState) (h : Reachable s) :
    SingleOpenInv s :=
  reachable_inv s h

/-- Claim C9 witness: the invariant holds at a concrete reachable state
(create, then finalize). -/
theorem astro_single_active_round_wit : SingleOpenInv witDone :=
  astro_single_active_round witDone witDone_reachable

/-- Claim C10: `getContribution` is total — for every (round id,
contributor) pair, including never-allocated ids, it returns the stored
handle (the uninitialized sentinel when nothing was stored, as in the
deployment state), and the sentinel is distinct from an encrypted zero. -/
theorem astro_getContribution_total (s : FundraiseState) (i : Nat)
    (p : Address) :
    s.getContribution i p = s.contributions i p ∧
    (initState s.cusdt s.self).getContribution i p = uninitValue ∧
    uninitValue ≠ FHE.asEuint64 0 :=
  ⟨rfl, rfl, by simp [uninitValue, FHE.asEuint64]⟩

/-- Claim C1: for an open round whose stored running total is the encrypted
zero a fresh round starts with, any finite sequence of successful
contributions leaves a running total that decrypts to the sum, modulo 2^64,
of the effectively-transferred amounts; and since plaintext addition is
commutative and associative, folding the same transferred amounts in any
other order (any permutation) yields the same decrypted value. -/
theorem astro_total_is_order_independent_sum (s : FundraiseState)
    (reqs : List ContribReq)
    (hrun : runOk s reqs = true)
    (hactive : s.activeCampaignId ≠ 0)
    (h0 : (s.campaigns s.activeCampaignId).totalRaised = FHE.asEuint64 0) :
    (runExec s reqs).activeCampaignId = s.activeCampaignId ∧
    decVal (((runExec s reqs).campaigns s.activeCampaignId).totalRaised)
      = (transfersOf s reqs).sum % M64 ∧
    ∀ ts2 : List Nat, (transfersOf s reqs).Perm ts2 →
      decVal (((runExec s reqs).campaigns s.activeCampaignId).totalRaised)
        = ts2.sum % M64 := by
  have htot : decVal ((s.campaigns s.activeCampaignId).totalRaised) < M64 := by
    rw [h0, decVal_asEuint64]
    exact Nat.mod_lt _ M64_pos
  obtain ⟨hA, hT⟩ := runExec_total s reqs hrun hactive htot
  have hT2 : decVal (((runExec s reqs).campaigns s.activeCampaignId).totalRaised)
      = (transfersOf s reqs).sum % M64 := by
    rw [hT, h0, decVal_asEuint64]
    simp
  exact ⟨hA, hT2, fun ts2 hp => by rw [hT2, hp.sum_eq]⟩

/-- Claim C1 witness: accounts 2 and 3 contribute 150 and 80 to the fresh
round; the total decrypts to 230, also when the two transferred amounts are
folded in the opposite order. -/
theorem astro_total_is_order_independent_sum_wit :
    decVal (((runExec witState [witReqA, witReqB]).campaigns
        witState.activeCampaignId).totalRaised) = 230 :=
  (astro_total_is_order_independent_sum witState [witReqA, witReqB]
      (by rfl) (by decide) rfl).2.2 [80, 150] (List.Perm.swap 80 150 [])

/-- Claim C3: after two successful contributions by the same contributor
with effective transferred amounts `x` then `y` in the same round, starting
from a missing prior record (treated as encrypted zero), the stored
cumulative record decrypts to `(x + y) mod 2^64`; within the 64-bit domain
this is exactly `x + y`, which (for positive amounts) differs from both
`max x y` and `y` alone. -/
theorem astro_cumulative_record_adds (s : FundraiseState) (r1 r2 : ContribReq)
    (hsame : r2.sender = r1.sender)
    (h1 : contributeOk s r1 = true)
    (h2 : contributeOk (contributeExec s r1) r2 = true)
    (hmiss : s.contributions s.activeCampaignId r1.sender = uninitValue)
    (x y : Nat)
    (hx : effTransfer s r1 = x)
    (hy : effTransfer (contributeExec s r1) r2 = y) :
    (contributeExec (contributeExec s r1) r2).contributions
        s.activeCampaignId r1.sender = some ((x + y) % M64) ∧
    (x + y < M64 →
      (contributeExec (contributeExec s r1) r2).contributions
          s.activeCampaignId r1.sender = some (x + y)) ∧
    (0 < x → 0 < y → x + y ≠ max x y ∧ x + y ≠ y) := by
  have hx64 : x < M64 := hx ▸ effTransfer_lt s r1
  have hy64 : y < M64 := hy ▸ effTransfer_lt (contributeExec s r1) r2
  have heq1 := (contribute_ok_elim s r1 h1).2.2.2
  have heq2 := (contribute_ok_elim (contributeExec s r1) r2 h2).2.2.2
  have hA1 : (contributeExec s r1).activeCampaignId = s.activeCampaignId := by
    rw [heq1]
    exact (contribResult_proj s r1).1
  have hv1 : (contributeExec s r1).contributions s.activeCampaignId r1.sender
      = some x := by
    rw [heq1, (contribResult_proj s r1).2.2.2.2, hmiss, hx, add_zero_small x hx64]
  have hv2 : (contributeExec (contributeExec s r1) r2).contributions
      s.activeCampaignId r1.sender = some ((x + y) % M64) := by
    have hp2 := (contribResult_proj (contributeExec s r1) r2).2.2.2.2
    rw [hA1, hsame] at hp2
    rw [heq2, hp2, hv1, hy, add_some_small x y, Nat.mod_eq_of_lt hy64]
  refine ⟨hv2, fun hlt => ?_, fun hx0 hy0 => ?_⟩
  · rw [hv2, Nat.mod_eq_of_lt hlt]
  · constructor <;> omega

/-- Claim C3 witness: account 2 contributes 150 twice; the cumulative
record decrypts to 300, not 150. -/
theorem astro_cumulative_record_adds_wit :
    (contributeExec (contributeExec witState witReqA) witReqA2).contributions
        witState.activeCampaignId witReqA.sender = some 300 :=
  (astro_cumulative_record_adds witState witReqA witReqA2 rfl (by rfl) (by rfl)
      rfl 150 150 rfl rfl).2.1 (by decide)
